import Mathlib

/-!
Shallow embedding of `src/index.ts` of the awsxray-exporter repository.

The program polls AWS X-Ray for recent traces, chunks the trace ids into
batches of 5, fetches the full traces, and forwards every non-inferred
segment Document over UDP with a fixed one-line JSON header prepended.

Modelling conventions:
* JavaScript strings are Lean `String`s; `Buffer.from(s)` is the UTF-8
  byte encoding of `s` (`String.toUTF8`), so string equality of payloads
  is byte equality of the buffers.
* `JSON.parse` is a platform builtin external to the repository; the code
  observes only (a) whether it throws and (b) the JS truthiness of the
  `inferred` field of its result.  It is therefore modelled as an
  arbitrary function `String → ParseResult` passed as a parameter.
* The two AWS paginators are external lazy page streams; each is modelled
  as the finite list of pages it yields followed by a flag saying whether
  requesting the next page after those throws.
* Exceptions are modelled explicitly: every run function returns the
  datagrams already dispatched before a throw together with a flag (or an
  `Except` / outcome marker) recording whether it threw.
* `Date.getTime()` values and millisecond intervals are modelled as `Int`
  (the model restricts `Number(POLLING_INTERVAL_SECONDS)` to integral
  values; fractional values behave analogously).
-/

namespace AwsXRayExporter

/-- Result of `JSON.parse` on a segment Document as observed by the code:
either the parse throws, or it yields a value whose `inferred` field has the
recorded JS truthiness. -/
inductive ParseResult where
  | error : ParseResult
  | value (inferred : Bool) : ParseResult
deriving DecidableEq, Repr

/-- A segment of a hydrated trace (`Trace.Segments` element): the code reads
only its optional `Document` string. -/
structure Segment where
  Document : Option String
deriving DecidableEq, Repr

/-- A hydrated trace (`Trace`): the code reads only its optional `Segments`
array. -/
structure Trace where
  Segments : Option (List Segment)
deriving DecidableEq, Repr

/-- The fixed header line prepended to every forwarded Document
(the string literal in `sendTracesToOtelUdp`). -/
def envelopeHeader : String := "\x7b\"format\": \"json\", \"version\": 1\x7d"

/-- Codec: the per-segment body of `sendTracesToOtelUdp` (index.ts lines
67-90).  `if (!trace.Document || JSON.parse(trace.Document).inferred) return;`
then `Buffer.from(header + "\n" + trace.Document)` is sent.  A falsy
Document (absent or the empty string) is skipped; a parse failure throws
(`Except.error`); a truthy `inferred` is skipped; otherwise exactly one
envelope is produced, the header line, a newline and the raw Document. -/
def segmentToEnvelope (parse : String → ParseResult) (s : Segment) :
    Except Unit (Option String) :=
  match s.Document with
  | none => Except.ok none
  | some doc =>
    if doc = "" then Except.ok none
    else
      match parse doc with
      | ParseResult.error => Except.error ()
      | ParseResult.value inferred =>
        if inferred then Except.ok none
        else Except.ok (some (envelopeHeader ++ "\n" ++ doc))

/-- Datagrams dispatched by `trace.Segments?.forEach` over a segment list,
together with whether the iteration threw (a `JSON.parse` failure): the
`forEach` aborts at the throwing segment, keeping the sends already
dispatched and dropping the rest. -/
def runSegments (parse : String → ParseResult) : List Segment → List String × Bool
  | [] => ([], false)
  | s :: rest =>
    match segmentToEnvelope parse s with
    | Except.error _ => ([], true)
    | Except.ok none => runSegments parse rest
    | Except.ok (some e) =>
      let r := runSegments parse rest
      (e :: r.1, r.2)

/-- One call of `sendTracesToOtelUdp` on a hydrated trace:
`traceData.Segments?.forEach(...)`, a no-op when `Segments` is absent. -/
def sendTracesToOtelUdp (parse : String → ParseResult) (t : Trace) :
    List String × Bool :=
  match t.Segments with
  | none => ([], false)
  | some segs => runSegments parse segs

/-- The generator `batchArray` of index.ts lines 37-41, index-step form:
`for (let i = 0; i < array.length; i += size) yield array.slice(i, i + size)`,
where `array.slice(i, i + size)` is `(array.drop i).take size`.  The loop is
modelled with explicit fuel so that the recursion is structural (hence
kernel-computable); `array.length` fuel suffices because `i` advances by
`size ≥ 1` each iteration (the program always calls it with `size = 5`). -/
def batchArrayGo (array : List String) (size : Nat) : Nat → Nat → List (List String)
  | _, 0 => []
  | i, fuel + 1 =>
    if i < array.length then
      ((array.drop i).take size) :: batchArrayGo array size (i + size) fuel
    else []

/-- `batchArray(array, size)`: chunk `array` into consecutive slices of
length `size` (the last one possibly shorter). -/
def batchArray (array : List String) (size : Nat) : List (List String) :=
  batchArrayGo array size 0 array.length

/-- One element of a summary page (`TraceSummary`): the code reads only its
optional `Id`. -/
structure SummaryItem where
  Id : Option String
deriving DecidableEq, Repr

/-- One page yielded by `paginateGetTraceSummaries`. -/
structure SummaryPage where
  TraceSummaries : Option (List SummaryItem)
deriving DecidableEq, Repr

/-- One page yielded by `paginateBatchGetTraces`. -/
structure TracePage where
  Traces : Option (List Trace)
deriving DecidableEq, Repr

/-- External dependencies of one `fetchTraces` cycle: the `JSON.parse`
observation and the batch paginator.  `batchFetch ids` is the page stream
`paginateBatchGetTraces({client}, {TraceIds: ids})`: the pages it yields,
and whether requesting the page after those throws. -/
structure FetchEnv where
  parse : String → ParseResult
  batchFetch : List String → List TracePage × Bool

/-- The loop body `traces.Traces?.forEach(sendTracesToOtelUdp)` over the
traces of one page: traces in page order, aborted by the first throw,
keeping the datagrams already dispatched. -/
def runTraceList (parse : String → ParseResult) : List Trace → List String × Bool
  | [] => ([], false)
  | t :: ts =>
    let r := sendTracesToOtelUdp parse t
    if r.2 then (r.1, true)
    else
      let r2 := runTraceList parse ts
      (r.1 ++ r2.1, r2.2)

/-- The inner `for await (const traces of paginateBatchGetTraces(...))` loop:
each page runs `traces.Traces?.forEach(sendTracesToOtelUdp)`; a throw inside
a page (or by the paginator after its pages) aborts the loop, keeping the
datagrams already dispatched. -/
def runTracePages (parse : String → ParseResult) :
    List TracePage → Bool → List String × Bool
  | [], throwsAfter => ([], throwsAfter)
  | p :: rest, throwsAfter =>
    let r := match p.Traces with
      | none => ([], false)
      | some ts => runTraceList parse ts
    if r.2 then (r.1, true)
    else
      let r2 := runTracePages parse rest throwsAfter
      (r.1 ++ r2.1, r2.2)

/-- The `for (const batch of batchedTraceIds)` loop (index.ts lines 47-57):
for each chunk, issue one `paginateBatchGetTraces` call (recorded as a batch
call) and drain its pages; a throw aborts the remaining chunks.  Returns
(batch calls issued, datagrams dispatched, threw). -/
def runBatches (env : FetchEnv) :
    List (List String) → List (List String) × List String × Bool
  | [] => ([], [], false)
  | b :: rest =>
    let pages := env.batchFetch b
    let r := runTracePages env.parse pages.1 pages.2
    if r.2 then ([b], r.1, true)
    else
      let r2 := runBatches env rest
      (b :: r2.1, r.1 ++ r2.2.1, r2.2.2)

/-- `traceSummaries.TraceSummaries?.flatMap((trace) => trace.Id ? [trace.Id] : [])`:
ids in page order, falsy (absent or empty) ids skipped. -/
def pageTraceIds (items : List SummaryItem) : List String :=
  items.flatMap fun t =>
    match t.Id with
    | some i => if i = "" then [] else [i]
    | none => []

/-- How one step of the `fetchTraces` body ends: fall through to the next
summary page, `return` early (`if (!traceIds)`), or throw. -/
inductive Outcome where
  | next : Outcome
  | ret : Outcome
  | thrown : Outcome
deriving DecidableEq, Repr

/-- Accumulated observable effects of (part of) one `fetchTraces` body:
the `paginateBatchGetTraces` calls issued, the datagrams dispatched, and
how the run ended. -/
structure RunResult where
  batchCalls : List (List String)
  sends : List String
  outcome : Outcome
deriving Repr

/-- Body of the summary loop for one summary page (index.ts lines 23-58):
`traceIds` is undefined exactly when `TraceSummaries` is undefined (an empty
array is truthy in JS, so `if (!traceIds) return` fires only then); otherwise
the ids are chunked by `batchArray(traceIds, 5)` and each chunk batch-fetched. -/
def runSummaryPage (env : FetchEnv) (p : SummaryPage) : RunResult :=
  match p.TraceSummaries with
  | none => ⟨[], [], Outcome.ret⟩
  | some items =>
    let r := runBatches env (batchArray (pageTraceIds items) 5)
    ⟨r.1, r.2.1, if r.2.2 then Outcome.thrown else Outcome.next⟩

/-- The `for await (const traceSummaries of paginateGetTraceSummaries(...))`
loop: pages in order; an early `return` or a throw stops the loop; after the
yielded pages, the paginator itself may throw (`throwsAfter`). -/
def runSummaryPages (env : FetchEnv) :
    List SummaryPage → Bool → RunResult
  | [], throwsAfter => ⟨[], [], if throwsAfter then Outcome.thrown else Outcome.next⟩
  | p :: rest, throwsAfter =>
    let r := runSummaryPage env p
    match r.outcome with
    | Outcome.next =>
      let r2 := runSummaryPages env rest throwsAfter
      ⟨r.batchCalls ++ r2.batchCalls, r.sends ++ r2.sends, r2.outcome⟩
    | o => ⟨r.batchCalls, r.sends, o⟩

/-- Everything one cycle consumes: the external dependencies and the summary
page stream `paginateGetTraceSummaries` yields for this cycle's window. -/
structure CycleInput where
  env : FetchEnv
  summaryPages : List SummaryPage
  summaryThrowsAfter : Bool

/-- The `try` block of `fetchTraces` (index.ts lines 22-58), before the
`catch`. -/
def fetchTracesBody (c : CycleInput) : RunResult :=
  runSummaryPages c.env c.summaryPages c.summaryThrowsAfter

/-- Observable result of one completed `fetchTraces` call: batch calls,
datagrams, and whether the cycle-level `catch` logged an error.  There is no
outcome field: `fetchTraces` always returns normally. -/
structure CycleResult where
  batchCalls : List (List String)
  sends : List String
  errorLogged : Bool
deriving Repr

/-- `fetchTraces` (index.ts lines 18-62): the body wrapped in
`try { ... } catch (error) { console.error("Error fetching traces:", error) }`,
so a thrown outcome becomes a logged error and a normal return. -/
def fetchTraces (c : CycleInput) : CycleResult :=
  let b := fetchTracesBody c
  ⟨b.batchCalls, b.sends, b.outcome == Outcome.thrown⟩

/-- The `while (true)` loop of `main` (index.ts lines 92-98) run over a list
of cycle inputs: every cycle runs `fetchTraces` then sleeps; nothing a cycle
does can stop the loop. -/
def mainLoop (cycles : List CycleInput) : List CycleResult :=
  cycles.map fetchTraces

/-- `POLLING_INTERVAL = Number(process.env.POLLING_INTERVAL_SECONDS) * 1000 || 10000`
(index.ts lines 9-10).  `envSeconds` is the result of `Number(...)`: `none`
models NaN (variable unset or non-numeric), `some s` a (integral) numeric
value.  `x || 10000` yields 10000 exactly when `x` is falsy, i.e. NaN or 0. -/
def pollingInterval (envSeconds : Option Int) : Int :=
  match envSeconds with
  | none => 10000
  | some s => if s * 1000 = 0 then 10000 else s * 1000

/-- The Time Window of one cycle (index.ts lines 19-20):
`EndTime = new Date(); StartTime = new Date(EndTime.getTime() - POLLING_INTERVAL)`,
as (start, end) in epoch milliseconds. -/
def timeWindow (now : Int) (interval : Int) : Int × Int :=
  (now - interval, now)

/-- The startup check of index.ts lines 11-14:
`if (!OTEL_COLLECTOR_URL) throw new Error(...)`.  The env variable absent or
empty (both falsy) throws before `main` is ever invoked; otherwise startup
proceeds with the url. -/
def startupCheck (otelCollectorUrl : Option String) : Except String String :=
  match otelCollectorUrl with
  | none => Except.error "OTEL_COLLECTOR_URL environment variable is required"
  | some url =>
    if url = "" then Except.error "OTEL_COLLECTOR_URL environment variable is required"
    else Except.ok url

/-- Whether the poll loop starts for a given `OTEL_COLLECTOR_URL` value:
`main()` is reached only when the startup check did not throw. -/
def pollLoopStarts (otelCollectorUrl : Option String) : Bool :=
  match startupCheck otelCollectorUrl with
  | Except.ok _ => true
  | Except.error _ => false

/-! ## Concrete example inputs used by witnesses and counterexamples -/

/-- A concrete stand-in for `JSON.parse` as the code observes it: the
document `{}` parses with no `inferred` field, the document
`{"inferred": true}` parses with a truthy `inferred`, and every other string
(for example `bad`) makes the parse throw. -/
def parseEx : String → ParseResult := fun d =>
  if d = "\x7b\x7d" then ParseResult.value false
  else if d = "\x7b\"inferred\": true\x7d" then ParseResult.value true
  else ParseResult.error

/-- A cycle whose batch fetch yields one page with one trace holding one
well-formed segment, whose summary paginator yields one page with the id
`t1` and then throws requesting the second page. -/
def cycleThrowingSecondPage : CycleInput :=
  ⟨⟨parseEx, fun _ => ([⟨some [⟨some [⟨some "\x7b\x7d"⟩]⟩]⟩], false)⟩,
    [⟨some [⟨some "t1"⟩]⟩], true⟩

/-- A cycle whose single batch page holds one trace with a malformed-Document
segment followed by a well-formed one, and whose summary stream yields one
page with the id `t1` and then ends normally. -/
def cycleMalformedSegment : CycleInput :=
  ⟨⟨parseEx, fun _ => ([⟨some [⟨some [⟨some "bad"⟩, ⟨some "\x7b\x7d"⟩]⟩]⟩], false)⟩,
    [⟨some [⟨some "t1"⟩]⟩], false⟩

/-! ## Lemmas about the size-5 chunking -/

lemma batchArrayGo_flatten (array : List String) :
    ∀ fuel i, array.length - i ≤ fuel →
      (batchArrayGo array 5 i fuel).flatten = array.drop i := by
  intro fuel
  induction fuel with
  | zero =>
    intro i hi
    simp only [batchArrayGo, List.flatten_nil]
    rw [List.drop_eq_nil_of_le (by omega)]
  | succ fuel ih =>
    intro i hi
    by_cases h : i < array.length
    · simp only [batchArrayGo, if_pos h, List.flatten_cons]
      rw [ih (i + 5) (by omega)]
      conv_rhs => rw [← List.take_append_drop 5 (array.drop i)]
      rw [List.drop_drop]
    · simp only [batchArrayGo, if_neg h, List.flatten_nil]
      rw [List.drop_eq_nil_of_le (by omega)]

lemma batchArrayGo_length (array : List String) :
    ∀ fuel i, array.length - i ≤ fuel →
      (batchArrayGo array 5 i fuel).length = (array.length - i + 4) / 5 := by
  intro fuel
  induction fuel with
  | zero =>
    intro i hi
    simp only [batchArrayGo, List.length_nil]
    omega
  | succ fuel ih =>
    intro i hi
    by_cases h : i < array.length
    · simp only [batchArrayGo, if_pos h, List.length_cons]
      rw [ih (i + 5) (by omega)]
      omega
    · simp only [batchArrayGo, if_neg h, List.length_nil]
      omega

lemma batchArrayGo_chunk_le (array : List String) :
    ∀ fuel i, ∀ c ∈ batchArrayGo array 5 i fuel, c.length ≤ 5 := by
  intro fuel
  induction fuel with
  | zero =>
    intro i c hc
    simp [batchArrayGo] at hc
  | succ fuel ih =>
    intro i c hc
    by_cases h : i < array.length
    · simp only [batchArrayGo, if_pos h, List.mem_cons] at hc
      rcases hc with rfl | hc
      · simp [List.length_take]
      · exact ih (i + 5) c hc
    · simp [batchArrayGo, if_neg h] at hc

/-- Claim C3: for every list of N trace identifiers (N ≥ 0) produced by one summary
page, chunking by `batchArray(traceIds, 5)` yields exactly ⌈N/5⌉ chunks
(one batch-fetch call each; ⌈N/5⌉ = (N+4)/5 in natural division), every chunk
has at most 5 identifiers, and the concatenation of the chunks is the original
identifier list: every identifier exactly once, in original order, with no
sorting or deduplication. -/
theorem batchArray_size5_spec (l : List String) :
    (batchArray l 5).length = (l.length + 4) / 5
    ∧ (∀ c ∈ batchArray l 5, c.length ≤ 5)
    ∧ (batchArray l 5).flatten = l := by
  refine ⟨?_, ?_, ?_⟩
  · have h := batchArrayGo_length l l.length 0 (by omega)
    simpa [batchArray] using h
  · intro c hc
    exact batchArrayGo_chunk_le l l.length 0 c hc
  · have h := batchArrayGo_flatten l l.length 0 (by omega)
    simpa [batchArray] using h

/-- Witness for C3 at the concrete identifier list of spec scenario A
(7 ids, chunked 5 + 2). -/
theorem batchArray_size5_spec_witness :
    (batchArray ["t1", "t2", "t3", "t4", "t5", "t6", "t7"] 5).length = 2
    ∧ (["t1", "t2", "t3", "t4", "t5"] : List String).length ≤ 5
    ∧ (batchArray ["t1", "t2", "t3", "t4", "t5", "t6", "t7"] 5).flatten
        = ["t1", "t2", "t3", "t4", "t5", "t6", "t7"] := by
  obtain ⟨h1, h2, h3⟩ := batchArray_size5_spec ["t1", "t2", "t3", "t4", "t5", "t6", "t7"]
  exact ⟨h1.trans (by decide), h2 ["t1", "t2", "t3", "t4", "t5"] (by decide), h3⟩

/-! ## Codec theorems -/

/-- Claim C1: for every segment whose Document string parses as JSON with the
`inferred` field absent or false (`ParseResult.value false`, the observed JS
truthiness), the Codec produces exactly one envelope, the fixed header line,
a newline and the original Document string, with no re-serialization or
mutation.  `Buffer.from` encodes this very string as UTF-8, and Lean string
equality is byte equality of the UTF-8 encodings.  The hypothesis `doc ≠ ""`
is forced by "parses as JSON": the empty string is not valid JSON, while the
model's `parse` argument is unconstrained. -/
theorem codec_forwards_noninferred (parse : String → ParseResult) (s : Segment)
    (doc : String) (hdoc : s.Document = some doc)
    (hparse : parse doc = ParseResult.value false) (hne : doc ≠ "") :
    segmentToEnvelope parse s = Except.ok (some (envelopeHeader ++ "\n" ++ doc)) := by
  simp [segmentToEnvelope, hdoc, hne, hparse]

/-- Witness for C1 at the concrete segment whose Document is `{}`. -/
theorem codec_forwards_noninferred_witness :
    segmentToEnvelope parseEx ⟨some "\x7b\x7d"⟩
      = Except.ok (some (envelopeHeader ++ "\n" ++ "\x7b\x7d")) :=
  codec_forwards_noninferred parseEx ⟨some "\x7b\x7d"⟩ "\x7b\x7d" rfl (by decide)
    (by decide)

/-- Claim C2: for every segment with no Document, or whose parsed Document has a
truthy `inferred` field, the Codec produces no envelope and the forEach over
a batch containing just that segment dispatches nothing to the UDP socket. -/
theorem codec_skips_docless_and_inferred (parse : String → ParseResult)
    (s : Segment)
    (h : s.Document = none
      ∨ ∃ doc, s.Document = some doc ∧ parse doc = ParseResult.value true) :
    segmentToEnvelope parse s = Except.ok none
    ∧ runSegments parse [s] = ([], false) := by
  have henv : segmentToEnvelope parse s = Except.ok none := by
    rcases h with h | ⟨doc, hdoc, hparse⟩
    · simp [segmentToEnvelope, h]
    · by_cases hne : doc = ""
      · simp [segmentToEnvelope, hdoc, hne]
      · simp [segmentToEnvelope, hdoc, hne, hparse]
  exact ⟨henv, by simp [runSegments, henv]⟩

/-- Witness for C2 at the concrete segment with no Document. -/
theorem codec_skips_docless_and_inferred_witness :
    segmentToEnvelope parseEx ⟨none⟩ = Except.ok none
    ∧ runSegments parseEx [⟨none⟩] = ([], false) :=
  codec_skips_docless_and_inferred parseEx ⟨none⟩ (Or.inl rfl)

/-- Claim C9: the Codec is deterministic, hence idempotent: two invocations of the
segment-to-envelope transformation on the same segment (with the same
`JSON.parse` behaviour) yield the same result, and whenever both produce an
envelope the two envelope byte buffers (`Buffer.from`, i.e. UTF-8 encoding)
are bit-identical; likewise both produce no envelope together. -/
theorem codec_deterministic (parse : String → ParseResult) (s t : Segment)
    (h : s = t) :
    segmentToEnvelope parse s = segmentToEnvelope parse t
    ∧ (∀ e1 e2, segmentToEnvelope parse s = Except.ok (some e1) →
        segmentToEnvelope parse t = Except.ok (some e2) →
          e1.toUTF8 = e2.toUTF8) := by
  subst h
  refine ⟨rfl, ?_⟩
  intro e1 e2 h1 h2
  rw [h1] at h2
  injection h2 with h2
  injection h2 with h2
  rw [h2]

/-- Witness for C9 at the concrete segment whose Document is `{}`. -/
theorem codec_deterministic_witness :
    segmentToEnvelope parseEx ⟨some "\x7b\x7d"⟩
      = segmentToEnvelope parseEx ⟨some "\x7b\x7d"⟩ :=
  (codec_deterministic parseEx ⟨some "\x7b\x7d"⟩ ⟨some "\x7b\x7d"⟩ rfl).1

/-! ## Configuration theorems -/

/-- Claim C7: if `OTEL_COLLECTOR_URL` is absent or empty (both falsy), startup
throws with a clear message before `main` is invoked, so the poll loop never
starts; if it is present (and non-empty), this check does not fail and the
poll loop starts. -/
theorem startup_requires_collector_url (urlEnv : Option String) :
    ((urlEnv = none ∨ urlEnv = some "") →
      startupCheck urlEnv
          = Except.error "OTEL_COLLECTOR_URL environment variable is required"
        ∧ pollLoopStarts urlEnv = false)
    ∧ (∀ u, urlEnv = some u → u ≠ "" →
        startupCheck urlEnv = Except.ok u ∧ pollLoopStarts urlEnv = true) := by
  constructor
  · rintro (rfl | rfl) <;> simp [startupCheck, pollLoopStarts]
  · rintro u rfl hu
    simp [startupCheck, pollLoopStarts, hu]

/-- Witness for C7: absent url fails startup, a concrete url passes. -/
theorem startup_requires_collector_url_witness :
    pollLoopStarts none = false ∧ pollLoopStarts (some "collector.local") = true :=
  ⟨((startup_requires_collector_url none).1 (Or.inl rfl)).2,
    ((startup_requires_collector_url (some "collector.local")).2
      "collector.local" rfl (by decide)).2⟩

/-- Claim C8 as stated is false on the code: `POLLING_INTERVAL_SECONDS = -5` gives
`Number(-5) * 1000 = -5000`, which is truthy, so `POLLING_INTERVAL = -5000`
and the window of a cycle at epoch time 0 is (5000, 0): start is not below
end. -/
theorem timeWindow_counterexample :
    pollingInterval (some (-5)) = -5000
    ∧ ¬ ((timeWindow 0 (pollingInterval (some (-5)))).1
          < (timeWindow 0 (pollingInterval (some (-5)))).2) := by
  decide

/-- Claim C8 amended: every cycle's window is exactly
(now − POLLING_INTERVAL, now), so its length is always POLLING_INTERVAL; and
start < end whenever POLLING_INTERVAL is positive, which holds whenever
`POLLING_INTERVAL_SECONDS` is unset, non-numeric, zero or non-negative, and
fails only for a negative setting. -/
theorem timeWindow_spec (now : Int) (envSeconds : Option Int) :
    timeWindow now (pollingInterval envSeconds)
        = (now - pollingInterval envSeconds, now)
    ∧ (timeWindow now (pollingInterval envSeconds)).2
        - (timeWindow now (pollingInterval envSeconds)).1 = pollingInterval envSeconds
    ∧ (0 < pollingInterval envSeconds →
        (timeWindow now (pollingInterval envSeconds)).1
          < (timeWindow now (pollingInterval envSeconds)).2)
    ∧ (∀ s, envSeconds = some s → 0 ≤ s → 0 < pollingInterval envSeconds)
    ∧ (envSeconds = none → 0 < pollingInterval envSeconds) := by
  refine ⟨rfl, by simp [timeWindow], ?_, ?_, ?_⟩
  · intro h
    simp only [timeWindow]
    omega
  · rintro s rfl hs
    simp only [pollingInterval]
    split
    · omega
    · omega
  · rintro rfl
    simp [pollingInterval]

/-- Witness for C8 (amended) at epoch time 10000 with the variable unset. -/
theorem timeWindow_spec_witness :
    (timeWindow 10000 (pollingInterval none)).1
      < (timeWindow 10000 (pollingInterval none)).2 := by
  have h := timeWindow_spec 10000 none
  exact h.2.2.1 (h.2.2.2.2 rfl)

/-- Claim C10: whenever `POLLING_INTERVAL_SECONDS` is unset or non-numeric
(`Number` gives NaN, modelled `none`) or zero — exactly the values where
`Number(v) * 1000` is 0 or NaN, hence falsy — the `|| 10000` fallback makes
the effective interval the default 10000 ms instead of startup failing, so
the resulting window is never empty or inverted and the positive-interval
requirement is never violated. -/
theorem pollingInterval_default (envSeconds : Option Int)
    (h : envSeconds = none ∨ envSeconds = some 0) :
    pollingInterval envSeconds = 10000
    ∧ 0 < pollingInterval envSeconds
    ∧ ∀ now, (timeWindow now (pollingInterval envSeconds)).1
          < (timeWindow now (pollingInterval envSeconds)).2
        ∧ (timeWindow now (pollingInterval envSeconds)).2
            - (timeWindow now (pollingInterval envSeconds)).1 = 10000 := by
  have h10 : pollingInterval envSeconds = 10000 := by
    rcases h with rfl | rfl <;> simp [pollingInterval]
  refine ⟨h10, by rw [h10]; decide, ?_⟩
  intro now
  rw [h10]
  constructor
  · simp only [timeWindow]
    omega
  · simp [timeWindow]

/-- Witness for C10 at the concrete setting `POLLING_INTERVAL_SECONDS = 0`
and epoch time 0. -/
theorem pollingInterval_default_witness :
    pollingInterval (some 0) = 10000
    ∧ (timeWindow 0 (pollingInterval (some 0))).1
        < (timeWindow 0 (pollingInterval (some 0))).2 := by
  have h := pollingInterval_default (some 0) (Or.inr rfl)
  exact ⟨h.1, (h.2.2 0).1⟩

/-! ## Cycle and poll-loop theorems -/

/-- Claim C6: every error thrown while fetching or paginating within a cycle is
caught by fetchTraces's try/catch: fetchTraces always returns normally, with
the effects accumulated before the throw and the error logged exactly when
the body threw; the poll loop then proceeds to the sleep step and runs every
subsequent cycle, so no runtime error terminates the process after startup. -/
theorem fetch_errors_swallowed (cycles : List CycleInput) :
    (mainLoop cycles).length = cycles.length
    ∧ ∀ c ∈ cycles,
        fetchTraces c = ⟨(fetchTracesBody c).batchCalls, (fetchTracesBody c).sends,
            (fetchTracesBody c).outcome == Outcome.thrown⟩
        ∧ ((fetchTracesBody c).outcome = Outcome.thrown →
            (fetchTraces c).errorLogged = true) := by
  refine ⟨by simp [mainLoop], ?_⟩
  intro c _
  refine ⟨rfl, ?_⟩
  intro h
  simp [fetchTraces, h]

/-- Witness for C6 at a concrete cycle whose summary paginator throws:
the loop still runs the cycle and the error is logged. -/
theorem fetch_errors_swallowed_witness :
    (mainLoop [cycleThrowingSecondPage]).length = 1
    ∧ (fetchTraces cycleThrowingSecondPage).errorLogged = true := by
  have h := fetch_errors_swallowed [cycleThrowingSecondPage]
  exact ⟨h.1, (h.2 cycleThrowingSecondPage (List.mem_singleton.2 rfl)).2 rfl⟩

lemma runSegments_cons (parse : String → ParseResult) (s : Segment)
    (rest : List Segment) :
    runSegments parse (s :: rest)
      = match segmentToEnvelope parse s with
        | Except.error _ => ([], true)
        | Except.ok none => runSegments parse rest
        | Except.ok (some e) =>
          (e :: (runSegments parse rest).1, (runSegments parse rest).2) := rfl

lemma runBatches_calls_of_no_throw (env : FetchEnv) :
    ∀ bs : List (List String), (runBatches env bs).2.2 = false →
      (runBatches env bs).1 = bs := by
  intro bs
  induction bs with
  | nil => intro _; rfl
  | cons b rest ih =>
    intro h
    by_cases hb :
        (runTracePages env.parse (env.batchFetch b).1 (env.batchFetch b).2).2 = true
    · simp only [runBatches, hb, if_true] at h
      simp at h
    · have hb' :
          (runTracePages env.parse (env.batchFetch b).1 (env.batchFetch b).2).2
            = false := by
        simpa using hb
      simp only [runBatches, hb', Bool.false_eq_true, if_false] at h ⊢
      rw [ih h]

/-- Claim C5 as stated is false on the code: batch fetching happens per summary
page inside the pagination loop, so by the time requesting the second page
throws, the first page's identifier was already passed to a batch-fetch call
and its segment already delivered; the error is then logged and the cycle
ends. -/
theorem summary_throw_counterexample :
    (fetchTraces cycleThrowingSecondPage).batchCalls = [["t1"]]
    ∧ (fetchTraces cycleThrowingSecondPage).batchCalls ≠ []
    ∧ (fetchTraces cycleThrowingSecondPage).sends
        = [envelopeHeader ++ "\n" ++ "\x7b\x7d"]
    ∧ (fetchTraces cycleThrowingSecondPage).errorLogged = true := by
  decide

/-- Claim C5 amended: in a cycle whose summary paginator yields one page and then
throws producing the second, the error is logged and the cycle ends, but the
first page's identifiers are not discarded: if the first page itself
processed without throwing, every one of its identifier chunks was already
passed to a batch-fetch call (batchCalls = batchArray ids 5) before the
throw. -/
theorem summary_throw_after_first_page (env : FetchEnv) (p : SummaryPage)
    (items : List SummaryItem) (hp : p.TraceSummaries = some items)
    (hok : (runSummaryPage env p).outcome = Outcome.next) :
    (fetchTraces ⟨env, [p], true⟩).batchCalls = batchArray (pageTraceIds items) 5
    ∧ (fetchTraces ⟨env, [p], true⟩).errorLogged = true := by
  have hnothrow :
      (runBatches env (batchArray (pageTraceIds items) 5)).2.2 = false := by
    by_contra hc
    have hc' : (runBatches env (batchArray (pageTraceIds items) 5)).2.2 = true := by
      simpa using hc
    simp [runSummaryPage, hp, hc'] at hok
  have hpage : runSummaryPage env p
      = ⟨batchArray (pageTraceIds items) 5,
          (runBatches env (batchArray (pageTraceIds items) 5)).2.1,
          Outcome.next⟩ := by
    simp only [runSummaryPage, hp, hnothrow, Bool.false_eq_true, if_false]
    rw [runBatches_calls_of_no_throw env _ hnothrow]
  constructor
  · simp [fetchTraces, fetchTracesBody, runSummaryPages, hpage]
  · simp [fetchTraces, fetchTracesBody, runSummaryPages, hpage]

/-- Witness for C5 (amended) at the concrete throwing cycle. -/
theorem summary_throw_after_first_page_witness :
    (fetchTraces cycleThrowingSecondPage).batchCalls = batchArray ["t1"] 5
    ∧ (fetchTraces cycleThrowingSecondPage).errorLogged = true := by
  have h := summary_throw_after_first_page cycleThrowingSecondPage.env
      ⟨some [⟨some "t1"⟩]⟩ [⟨some "t1"⟩] rfl (by decide)
  exact h

/-- Claim C4 as stated is false on the code: there is no catch around
`JSON.parse`, so a malformed Document throws out of the segment forEach; in
`cycleMalformedSegment` the well-formed segment following the malformed one
in the same batch produces no datagram, and the error is caught and logged
only at cycle level, aborting the remainder of the cycle. -/
theorem malformed_doc_counterexample :
    segmentToEnvelope parseEx ⟨some "bad"⟩ = Except.error ()
    ∧ runSegments parseEx [⟨some "bad"⟩, ⟨some "\x7b\x7d"⟩] = ([], true)
    ∧ (fetchTraces cycleMalformedSegment).sends = []
    ∧ (fetchTraces cycleMalformedSegment).errorLogged = true := by
  refine ⟨rfl, rfl, rfl, rfl⟩

/-- Claim C4 amended: a segment whose Document fails JSON.parse throws out of the
forEach: the datagrams of the segments before it in the same batch stay
dispatched, but it and every later segment of the batch are dropped and the
iteration reports a throw, which aborts the batch and is caught and logged at
cycle level (the process itself does not crash and retries next cycle). -/
theorem malformed_doc_aborts_batch (parse : String → ParseResult)
    (pre rest : List Segment) (b : Segment)
    (hpre : (runSegments parse pre).2 = false)
    (hb : segmentToEnvelope parse b = Except.error ()) :
    runSegments parse (pre ++ b :: rest) = ((runSegments parse pre).1, true)
    ∧ sendTracesToOtelUdp parse ⟨some (pre ++ b :: rest)⟩
        = ((runSegments parse pre).1, true) := by
  have key : ∀ ps : List Segment, (runSegments parse ps).2 = false →
      runSegments parse (ps ++ b :: rest) = ((runSegments parse ps).1, true) := by
    intro ps
    induction ps with
    | nil =>
      intro _
      simp [runSegments_cons, hb, runSegments]
    | cons s ss ih =>
      intro hps
      cases hse : segmentToEnvelope parse s with
      | error e =>
        simp [List.cons_append, List.append_eq, runSegments_cons, hse] at hps
      | ok o =>
        cases o with
        | none =>
          simp only [List.cons_append, List.append_eq, runSegments_cons, hse] at hps ⊢
          exact ih hps
        | some e =>
          simp only [List.cons_append, List.append_eq, runSegments_cons, hse] at hps ⊢
          rw [ih hps]
  exact ⟨key pre hpre, by simp only [sendTracesToOtelUdp]; exact key pre hpre⟩

/-- Witness for C4 (amended): a good segment, then a malformed one, then a
good one: only the first one's datagram is dispatched and the run throws. -/
theorem malformed_doc_aborts_batch_witness :
    runSegments parseEx [⟨some "\x7b\x7d"⟩, ⟨some "bad"⟩, ⟨some "\x7b\x7d"⟩]
      = ([envelopeHeader ++ "\n" ++ "\x7b\x7d"], true) := by
  have h := malformed_doc_aborts_batch parseEx [⟨some "\x7b\x7d"⟩]
      [⟨some "\x7b\x7d"⟩] ⟨some "bad"⟩ (by decide) rfl
  exact h.1

end AwsXRayExporter
